import Mathlib

/-!
Verification of the getaq.py air-quality retrieval script.

The script's pure core is embedded shallowly: Python dictionaries become
association lists with Python's update-or-append semantics, numbers become
ℤ / ℚ, fallible code returns Except, and the effectful main is a function
of its collaborators (key file system, HTTP response).  The PM2.5 → IAQI
conversion performed by the external aqi library and the calendar
conversion performed by the datetime module are modelled from their
documented behaviour (EPA breakpoint table, proleptic Gregorian calendar
as in CPython's datetime).
-/

/-- A Python value as it occurs in this program: None, int, float or str.
Floats are embedded as rationals (only carried and compared here). -/
inductive Value where
  | null : Value
  | int (n : ℤ) : Value
  | float (q : ℚ) : Value
  | str (s : String) : Value
deriving DecidableEq

/-- The ways the script can fail: the two assert statements of
parse_sensor_record, dictionary KeyError, TypeError, a missing key file,
and a failure inside the external aqi library. -/
inductive Err where
  | assertLenMismatch : Err
  | assertPm25Type : Err
  | keyErr (k : String) : Err
  | typeErr : Err
  | fileNotFound : Err
  | aqiErr : Err
deriving DecidableEq

/-- A Python dict with string keys, as an insertion-ordered association list. -/
abbrev PyDict := List (String × Value)

/-- Python dict assignment: update the value in place if the key exists,
otherwise append the new binding. -/
def dictSet : PyDict → String → Value → PyDict
  | [], k, v => [(k, v)]
  | (k0, v0) :: rest, k, v =>
    if k0 = k then (k0, v) :: rest else (k0, v0) :: dictSet rest k v

/-- Python dict lookup (None instead of KeyError; callers raise explicitly). -/
def dictGet : PyDict → String → Option Value
  | [], _ => none
  | (k0, v0) :: rest, k => if k0 = k then some v0 else dictGet rest k

/-- The keys of a dict, in insertion order. -/
def dictKeys (d : PyDict) : List String := d.map Prod.fst

/-- The dict comprehension over zip(fields, record): insert pairs left to
right (a duplicate key keeps its first position and last value). -/
def pyDictOfZip (ks : List String) (vs : List Value) : PyDict :=
  (List.zip ks vs).foldl (fun d kv => dictSet d kv.1 kv.2) []

/-- FIELDS from getaq.py: the sensor fields requested from the API. -/
def FIELDS : List String :=
  ["name", "private", "last_seen", "latitude", "longitude", "position_rating",
   "pm1.0", "pm2.5", "pm10.0"]

/-- ALL_FIELDS from getaq.py: an integer id is included first. -/
def ALL_FIELDS : List String := "id" :: FIELDS

/-- Modelled from the spec: the EPA PM2.5 breakpoint row (BPlo, BPhi, Ilo, Ihi)
whose concentration range contains the given concentration, in tenths of a
µg/m³ (EPA concentrations are truncated to one decimal place before lookup).
The conversion itself lives in the external aqi library, not in this
repository. -/
def pm25Seg (k : ℤ) : Option (ℤ × ℤ × ℤ × ℤ) :=
  if 0 ≤ k ∧ k ≤ 120 then some (0, 120, 0, 50)
  else if 121 ≤ k ∧ k ≤ 354 then some (121, 354, 51, 100)
  else if 355 ≤ k ∧ k ≤ 554 then some (355, 554, 101, 150)
  else if 555 ≤ k ∧ k ≤ 1504 then some (555, 1504, 151, 200)
  else if 1505 ≤ k ∧ k ≤ 2504 then some (1505, 2504, 201, 300)
  else if 2505 ≤ k ∧ k ≤ 3504 then some (2505, 3504, 301, 400)
  else if 3505 ≤ k ∧ k ≤ 5004 then some (3505, 5004, 401, 500)
  else none

/-- Round num/den (den > 0, num ≥ 0 at call sites) to the nearest integer,
ties to even, as Decimal quantize with ROUND_HALF_EVEN does. -/
def rneInt (num den : ℤ) : ℤ :=
  let q := num / den
  let r := num % den
  if 2 * r < den then q
  else if den < 2 * r then q + 1
  else if q % 2 = 0 then q else q + 1

/-- Modelled from the spec: the EPA piecewise-linear IAQI value
((Ihi - Ilo)/(BPhi - BPlo)) * (Cp - BPlo) + Ilo rounded to an integer, for a
PM2.5 concentration given in tenths of a µg/m³; none outside the table. -/
def to_iaqi_tenths (k : ℤ) : Option ℤ :=
  match pm25Seg k with
  | none => none
  | some (clo, chi, ilo, ihi) =>
    some (rneInt ((ihi - ilo) * (k - clo) + ilo * (chi - clo)) (chi - clo))

/-- Modelled from the spec: aqi.to_iaqi(aqi.POLLUTANT_PM25, str(n), ALGO_EPA)
for the integer concentration n that getaq.py passes it. -/
def to_iaqi (n : ℤ) : Option ℤ := to_iaqi_tenths (10 * n)

/-- parse_sensor_record from getaq.py: zip the field names against the raw
record (asserting equal lengths), assert the pm2.5 value is an int, and
attach epa_iaqi_25: the converted IAQI for pm2.5 ≤ 500, None above 500. -/
def parse_sensor_record (fields : List String) (record : List Value) :
    Except Err PyDict :=
  if fields.length ≠ record.length then .error .assertLenMismatch
  else
    match dictGet (pyDictOfZip fields record) "pm2.5" with
    | none => .error (.keyErr "pm2.5")
    | some (Value.int n) =>
      if n ≤ 500 then
        match to_iaqi n with
        | some v => .ok (dictSet (pyDictOfZip fields record) "epa_iaqi_25" (Value.int v))
        | none => .error .aqiErr
      else .ok (dictSet (pyDictOfZip fields record) "epa_iaqi_25" Value.null)
    | some _ => .error .assertPm25Type

/-- 1 if the proleptic-Gregorian year is a leap year, else 0. -/
def leapDay (y : ℤ) : ℤ :=
  if y % 4 = 0 ∧ (¬(y % 100 = 0) ∨ y % 400 = 0) then 1 else 0

/-- Year from days since the Unix epoch, via the divmod cascade over
400/100/4/1-year cycles used by CPython's datetime (epoch day 0 has
proleptic ordinal 719163). -/
def yearOfDays (z : ℤ) : ℤ :=
  400 * ((z + 719162) / 146097) + 100 * ((z + 719162) % 146097 / 36524) +
    4 * ((z + 719162) % 146097 % 36524 / 1461) +
    (z + 719162) % 146097 % 36524 % 1461 / 365 +
    (if (z + 719162) % 146097 % 36524 % 1461 / 365 = 4 ∨
        (z + 719162) % 146097 / 36524 = 4
      then 0 else 1)

/-- 0-based day of year from days since the Unix epoch. -/
def doyOfDays (z : ℤ) : ℤ :=
  if (z + 719162) % 146097 % 36524 % 1461 / 365 = 4 ∨
      (z + 719162) % 146097 / 36524 = 4
    then 365 else (z + 719162) % 146097 % 36524 % 1461 % 365

/-- Month from leap marker and 0-based day-of-year. -/
def monthOfDoy (L doy : ℤ) : ℤ :=
  if doy < 31 then 1
  else if doy < 59 + L then 2
  else if doy < 90 + L then 3
  else if doy < 120 + L then 4
  else if doy < 151 + L then 5
  else if doy < 181 + L then 6
  else if doy < 212 + L then 7
  else if doy < 243 + L then 8
  else if doy < 273 + L then 9
  else if doy < 304 + L then 10
  else if doy < 334 + L then 11
  else 12

/-- Days before the first of the given month within a year with leap marker L. -/
def daysBeforeMonth (L m : ℤ) : ℤ :=
  if m = 1 then 0
  else if m = 2 then 31
  else if m = 3 then 59 + L
  else if m = 4 then 90 + L
  else if m = 5 then 120 + L
  else if m = 6 then 151 + L
  else if m = 7 then 181 + L
  else if m = 8 then 212 + L
  else if m = 9 then 243 + L
  else if m = 10 then 273 + L
  else if m = 11 then 304 + L
  else 334 + L

/-- Day of month from leap marker and 0-based day-of-year. -/
def domOfDoy (L doy : ℤ) : ℤ :=
  doy - daysBeforeMonth L (monthOfDoy L doy) + 1

/-- Days before January 1 of the given year, counted from year 1. -/
def daysBeforeYear (y : ℤ) : ℤ :=
  365 * (y - 1) + (y - 1) / 4 - (y - 1) / 100 + (y - 1) / 400

/-- Days since the Unix epoch from a civil (year, month, day). -/
def daysFromCivil (y m d : ℤ) : ℤ :=
  daysBeforeYear y + daysBeforeMonth (leapDay y) m + d - 1 - 719162

/-- Two decimal digits, zero padded. -/
def pad2 (n : ℕ) : List Char :=
  [Nat.digitChar (n / 10 % 10), Nat.digitChar (n % 10)]

/-- Four decimal digits, zero padded. -/
def pad4 (n : ℕ) : List Char :=
  [Nat.digitChar (n / 1000 % 10), Nat.digitChar (n / 100 % 10),
   Nat.digitChar (n / 10 % 10), Nat.digitChar (n % 10)]

/-- The characters of datetime.fromtimestamp(t, tz=timezone.utc).isoformat()
for a whole-second timestamp t. -/
def isoChars (t : ℤ) : List Char :=
  pad4 (yearOfDays (t / 86400)).toNat ++
    '-' :: pad2 (monthOfDoy (leapDay (yearOfDays (t / 86400))) (doyOfDays (t / 86400))).toNat ++
    '-' :: pad2 (domOfDoy (leapDay (yearOfDays (t / 86400))) (doyOfDays (t / 86400))).toNat ++
    'T' :: pad2 ((t % 86400).toNat / 3600) ++
    ':' :: pad2 ((t % 86400).toNat % 3600 / 60) ++
    ':' :: pad2 ((t % 86400).toNat % 60) ++
    ['+', '0', '0', ':', '0', '0']

/-- iso_date from getaq.py: an ISO-8601 UTC string with explicit offset. -/
def iso_date (t : ℤ) : String := String.mk (isoChars t)

/-- The numeric value of a decimal digit character. -/
def digitVal (c : Char) : ℕ := c.toNat - 48

/-- Parse an ISO-8601 UTC string of the exact shape produced by iso_date
back to an epoch timestamp. -/
def parseIsoChars : List Char → Option ℤ
  | [y1, y2, y3, y4, '-', m1, m2, '-', d1, d2, 'T',
     h1, h2, ':', i1, i2, ':', s1, s2, '+', '0', '0', ':', '0', '0'] =>
    if y1.isDigit && y2.isDigit && y3.isDigit && y4.isDigit &&
        m1.isDigit && m2.isDigit && d1.isDigit && d2.isDigit &&
        h1.isDigit && h2.isDigit && i1.isDigit && i2.isDigit &&
        s1.isDigit && s2.isDigit then
      some (86400 * daysFromCivil
          ((1000 * digitVal y1 + 100 * digitVal y2 + 10 * digitVal y3 + digitVal y4 : ℕ) : ℤ)
          ((10 * digitVal m1 + digitVal m2 : ℕ) : ℤ)
          ((10 * digitVal d1 + digitVal d2 : ℕ) : ℤ) +
        ((3600 * (10 * digitVal h1 + digitVal h2) + 60 * (10 * digitVal i1 + digitVal i2) +
          (10 * digitVal s1 + digitVal s2) : ℕ) : ℤ))
    else none
  | _ => none

/-- Parse an ISO-8601 UTC string back to an epoch timestamp. -/
def parse_iso (s : String) : Option ℤ := parseIsoChars s.data

/-- The fields of the PurpleAir API response that getaq.py reads. -/
structure ApiResponse where
  api_version : Value
  location_type : Value
  max_age : Value
  firmware_default_version : Value
  time_stamp : ℤ
  data_time_stamp : ℤ
  data : List (List Value)

/-- The in-order dict assignments of main's loop body after parsing: the four
batch-level metadata fields copied verbatim, then the two batch timestamps
as ISO strings. -/
def metaSets (resp : ApiResponse) (parsed : PyDict) : PyDict :=
  dictSet (dictSet (dictSet (dictSet (dictSet (dictSet parsed
    "api_version" resp.api_version) "location_type" resp.location_type)
    "max_age" resp.max_age) "firmware_default_version" resp.firmware_default_version)
    "time_stamp" (Value.str (iso_date resp.time_stamp)))
    "data_time_stamp" (Value.str (iso_date resp.data_time_stamp))

/-- One iteration of main's loop over data['data']: parse the record, copy
the four batch-level metadata fields onto it, attach the two batch
timestamps as ISO strings, and rewrite last_seen to an ISO string. -/
def process_record (resp : ApiResponse) (record : List Value) :
    Except Err PyDict :=
  match parse_sensor_record ALL_FIELDS record with
  | .error e => .error e
  | .ok parsed =>
    match dictGet (metaSets resp parsed) "last_seen" with
    | none => .error (.keyErr "last_seen")
    | some (Value.int t) =>
      .ok (dictSet (metaSets resp parsed) "last_seen" (Value.str (iso_date t)))
    | some _ => .error .typeErr

/-- Map an Except-returning function over a list, stopping at the first
error, as Python's for loop does with exceptions. -/
def exceptMapList (f : α → Except Err β) : List α → Except Err (List β)
  | [] => .ok []
  | x :: xs =>
    match f x with
    | .error e => .error e
    | .ok y =>
      match exceptMapList f xs with
      | .error e => .error e
      | .ok ys => .ok (y :: ys)

/-- The readings list built by main's loop. -/
def run_batch (resp : ApiResponse) : Except Err (List PyDict) :=
  exceptMapList (process_record resp) resp.data

/-- A hexadecimal digit character (decimal for n < 10). -/
def digitCh (n : ℕ) : Char :=
  if n = 0 then '0' else if n = 1 then '1' else if n = 2 then '2'
  else if n = 3 then '3' else if n = 4 then '4' else if n = 5 then '5'
  else if n = 6 then '6' else if n = 7 then '7' else if n = 8 then '8'
  else if n = 9 then '9' else if n = 10 then 'a' else if n = 11 then 'b'
  else if n = 12 then 'c' else if n = 13 then 'd' else if n = 14 then 'e'
  else 'f'

/-- json.dumps escaping for one character inside a string literal. -/
def jsonEscapeChar (c : Char) : List Char :=
  if c = '"' then ['\\', '"']
  else if c = '\\' then ['\\', '\\']
  else if c = '\n' then ['\\', 'n']
  else if c = '\r' then ['\\', 'r']
  else if c = '\t' then ['\\', 't']
  else if c.toNat < 32 then
    ['\\', 'u', '0', '0', digitCh (c.toNat / 16), digitCh (c.toNat % 16)]
  else [c]

/-- A JSON string literal (non-ASCII characters are emitted raw; no claim
depends on the ensure_ascii escaping of printable characters). -/
def jsonStringChars (s : String) : List Char :=
  '"' :: (s.data.map jsonEscapeChar).flatten ++ ['"']

/-- Decimal digits of a natural number. -/
def natDigits (n : ℕ) : List Char :=
  if n < 10 then [digitCh n]
  else natDigits (n / 10) ++ [digitCh (n % 10)]
decreasing_by exact Nat.div_lt_self (by omega) (by norm_num)

/-- Decimal digits of an integer. -/
def intChars (n : ℤ) : List Char :=
  if n < 0 then '-' :: natDigits (-n).toNat else natDigits n.toNat

/-- A decimal-free rendering of a rational; stands in for Python float repr
(an embedding artifact: no claim inspects the text of a float). -/
def ratChars (q : ℚ) : List Char :=
  intChars q.num ++ '/' :: natDigits q.den

/-- json.dumps rendering of one value. -/
def valueChars : Value → List Char
  | Value.null => ['n', 'u', 'l', 'l']
  | Value.int n => intChars n
  | Value.float q => ratChars q
  | Value.str s => jsonStringChars s

/-- json.dumps rendering of one key-value entry (default ": " separator). -/
def entryChars (kv : String × Value) : List Char :=
  jsonStringChars kv.1 ++ ':' :: ' ' :: valueChars kv.2

/-- Join chunks with a separator, like str.join. -/
def joinSep (sep : List Char) : List (List Char) → List Char
  | [] => []
  | [x] => x
  | x :: xs => x ++ sep ++ joinSep sep xs

/-- json.dumps rendering of a dict (default ", " separator). -/
def dictChars (d : PyDict) : List Char :=
  '\x7b' :: joinSep [',', ' '] (d.map entryChars) ++ ['\x7d']

/-- json.dumps of one reading. -/
def json_dumps (d : PyDict) : String := String.mk (dictChars d)

/-- Everything main writes to stdout: newline-joined readings plus the
trailing newline appended by print. -/
def emitChars (readings : List PyDict) : List Char :=
  joinSep ['\n'] (readings.map dictChars) ++ ['\n']

/-- main's stdout as a string. -/
def emit (readings : List PyDict) : String := String.mk (emitChars readings)

/-- The number of lines written, as the number of newline characters. -/
def countNL (s : String) : ℕ := s.data.count '\n'

/-- Python str.strip: drop leading and trailing whitespace. -/
def stripChars (cs : List Char) : List Char :=
  ((cs.dropWhile Char.isWhitespace).reverse.dropWhile Char.isWhitespace).reverse

/-- Python str.strip on a string. -/
def pyStrip (s : String) : String := String.mk (stripChars s.data)

/-- The first line of a file's contents, as fh.readline() followed by
strip() sees it. -/
def firstLine (s : String) : String :=
  String.mk (s.data.takeWhile (fun c => c != '\n'))

/-- main's API-key resolution: an explicit --apikey wins; otherwise the
first line of the key file, stripped; a missing key file is fatal. -/
def resolve_apikey (apikey : Option String) (fs : String → Option String)
    (keyfile : String) : Except Err String :=
  match apikey with
  | some k => .ok k
  | none =>
    match fs keyfile with
    | some content => .ok (pyStrip (firstLine content))
    | none => .error .fileNotFound

/-- main from getaq.py as a function of its collaborators: the key-file
system and the HTTP GET (a function from the API key sent in the header to
the JSON response).  Returns the text written to stdout. -/
def run_main (apikey : Option String) (fs : String → Option String)
    (keyfile : String) (http : String → ApiResponse) : Except Err String :=
  match resolve_apikey apikey fs keyfile with
  | .error e => .error e
  | .ok key =>
    match run_batch (http key) with
    | .error e => .error e
    | .ok readings => .ok (emit readings)

/-- A well-formed sensor record with the given pm2.5 value, used as a
concrete test vector. -/
def sampleRec (pm : Value) : List Value :=
  [Value.int 1, Value.str "s", Value.int 0, Value.int 1700000000, Value.float 40,
   Value.float (-80), Value.int 5, Value.float 1, pm, Value.float 2]

/-- A concrete two-record API response, as in the spec's batch scenario. -/
def sampleResp : ApiResponse :=
  ⟨Value.str "V1", Value.int 0, Value.int 3600, Value.str "F1",
    1700000000, 1700000001, [sampleRec (Value.int 10), sampleRec (Value.int 501)]⟩

theorem leapDay_nonneg (y : ℤ) : 0 ≤ leapDay y := by
  unfold leapDay; split <;> omega

theorem leapDay_le_one (y : ℤ) : leapDay y ≤ 1 := by
  unfold leapDay; split <;> omega

set_option maxHeartbeats 1000000 in
/-- The cascade year and day-of-year recombine with the day count before
the year, and the day-of-year is within the year's length. -/
theorem yearDoy_spec (z : ℤ) :
    daysBeforeYear (yearOfDays z) + doyOfDays z = z + 719162 ∧
    0 ≤ doyOfDays z ∧ doyOfDays z ≤ 364 + leapDay (yearOfDays z) := by
  unfold yearOfDays doyOfDays
  obtain ⟨a, ha⟩ : ∃ a, (z + 719162) / 146097 = a := ⟨_, rfl⟩
  obtain ⟨ra, hra⟩ : ∃ r, (z + 719162) % 146097 = r := ⟨_, rfl⟩
  rw [ha, hra]
  obtain ⟨b, hb⟩ : ∃ b, ra / 36524 = b := ⟨_, rfl⟩
  obtain ⟨rb, hrb⟩ : ∃ r, ra % 36524 = r := ⟨_, rfl⟩
  rw [hb, hrb]
  obtain ⟨c, hc⟩ : ∃ c, rb / 1461 = c := ⟨_, rfl⟩
  obtain ⟨rc, hrc⟩ : ∃ r, rb % 1461 = r := ⟨_, rfl⟩
  rw [hc, hrc]
  obtain ⟨d, hd⟩ : ∃ d, rc / 365 = d := ⟨_, rfl⟩
  obtain ⟨rd, hrd⟩ : ∃ r, rc % 365 = r := ⟨_, rfl⟩
  rw [hd, hrd]
  have e1 : 146097 * a + ra = z + 719162 ∧ 0 ≤ ra ∧ ra < 146097 := by omega
  have e2 : 36524 * b + rb = ra ∧ 0 ≤ rb ∧ rb < 36524 ∧ 0 ≤ b ∧ b ≤ 4 := by omega
  have e3 : 1461 * c + rc = rb ∧ 0 ≤ rc ∧ rc < 1461 ∧ 0 ≤ c ∧ c ≤ 24 := by omega
  have e4 : 365 * d + rd = rc ∧ 0 ≤ rd ∧ rd < 365 ∧ 0 ≤ d ∧ d ≤ 4 := by omega
  clear ha hra hb hrb hc hrc hd hrd
  by_cases hsp : d = 4 ∨ b = 4
  · rw [if_pos hsp, if_pos hsp]
    rcases hsp with h4 | h4
    · -- last day of a leap 4-year block: rc = 1460, c ≤ 23
      subst h4
      have hx : c ≤ 23 ∧ b ≤ 3 ∧ rc = 1460 ∧ rd = 0 := by omega
      have hf1 : 400 * a + 100 * b + 4 * c + 4 + (0 : ℤ) = 400 * a + 100 * b + 4 * c + 4 := by
        ring
      rw [hf1]
      unfold daysBeforeYear
      have hf2 : 400 * a + 100 * b + 4 * c + 4 - (1 : ℤ) = 400 * a + 100 * b + 4 * c + 3 := by
        ring
      rw [hf2]
      have p1 : (400 * a + 100 * b + 4 * c + 3) / 4 = 100 * a + 25 * b + c := by omega
      have p2 : (400 * a + 100 * b + 4 * c + 3) / 100 = 4 * a + b := by omega
      have p3 : (400 * a + 100 * b + 4 * c + 3) / 400 = a := by omega
      unfold leapDay
      split
      · omega
      · rename_i hnl
        exfalso
        apply hnl
        refine ⟨by omega, Or.inl (by omega)⟩
    · -- last day of a 400-year block: everything below the century is zero
      subst h4
      have hx : rb = 0 ∧ c = 0 ∧ rc = 0 ∧ d = 0 ∧ rd = 0 := by omega
      have hf1 : 400 * a + 100 * 4 + 4 * c + d + (0 : ℤ) = 400 * a + 4 * c + d + 400 := by
        ring
      rw [hf1]
      unfold daysBeforeYear
      have hf2 : 400 * a + 4 * c + d + 400 - (1 : ℤ) = 400 * a + 4 * c + d + 399 := by
        ring
      rw [hf2]
      have p1 : (400 * a + 4 * c + d + 399) / 4 = 100 * a + c + 99 := by omega
      have p2 : (400 * a + 4 * c + d + 399) / 100 = 4 * a + 3 := by omega
      have p3 : (400 * a + 4 * c + d + 399) / 400 = a := by omega
      unfold leapDay
      split
      · omega
      · rename_i hnl
        exfalso
        apply hnl
        refine ⟨by omega, Or.inr (by omega)⟩
  · rw [if_neg hsp, if_neg hsp]
    have hx : d ≤ 3 ∧ b ≤ 3 := by omega
    unfold daysBeforeYear
    have hf1 : 400 * a + 100 * b + 4 * c + d + 1 - (1 : ℤ) = 400 * a + 100 * b + 4 * c + d := by
      ring
    rw [hf1]
    have p1 : (400 * a + 100 * b + 4 * c + d) / 4 = 100 * a + 25 * b + c := by omega
    have p2 : (400 * a + 100 * b + 4 * c + d) / 100 = 4 * a + b := by omega
    have p3 : (400 * a + 100 * b + 4 * c + d) / 400 = a := by omega
    have hl1 := leapDay_nonneg (400 * a + 100 * b + 4 * c + d + 1)
    omega

set_option maxHeartbeats 1000000 in
/-- The month split of a day-of-year recombines with the day count before
the month, and month and day are in range. -/
theorem monthDoy_spec (L doy : ℤ) (hL0 : 0 ≤ L) (hL1 : L ≤ 1)
    (h0 : 0 ≤ doy) (h1 : doy ≤ 364 + L) :
    daysBeforeMonth L (monthOfDoy L doy) + domOfDoy L doy - 1 = doy ∧
    1 ≤ monthOfDoy L doy ∧ monthOfDoy L doy ≤ 12 ∧
    1 ≤ domOfDoy L doy ∧ domOfDoy L doy ≤ 31 := by
  unfold domOfDoy monthOfDoy
  split_ifs <;> norm_num [daysBeforeMonth] <;> omega

/-- Recomposing the (year, month, day) split of an epoch day count gives
the day count back. -/
theorem civil_inverse (z : ℤ) :
    daysFromCivil (yearOfDays z) (monthOfDoy (leapDay (yearOfDays z)) (doyOfDays z))
      (domOfDoy (leapDay (yearOfDays z)) (doyOfDays z)) = z := by
  have hy := yearDoy_spec z
  have hm := monthDoy_spec (leapDay (yearOfDays z)) (doyOfDays z)
    (leapDay_nonneg _) (leapDay_le_one _) hy.2.1 hy.2.2
  unfold daysFromCivil
  omega

set_option maxHeartbeats 400000 in
/-- Epoch day counts in the datetime-representable range give years 1..9999. -/
theorem year_bounds (z : ℤ) (h0 : -719162 ≤ z) (h1 : z ≤ 2932896) :
    1 ≤ yearOfDays z ∧ yearOfDays z ≤ 9999 := by
  unfold yearOfDays
  obtain ⟨a, ha⟩ : ∃ a, (z + 719162) / 146097 = a := ⟨_, rfl⟩
  obtain ⟨ra, hra⟩ : ∃ r, (z + 719162) % 146097 = r := ⟨_, rfl⟩
  rw [ha, hra]
  obtain ⟨b, hb⟩ : ∃ b, ra / 36524 = b := ⟨_, rfl⟩
  obtain ⟨rb, hrb⟩ : ∃ r, ra % 36524 = r := ⟨_, rfl⟩
  rw [hb, hrb]
  obtain ⟨c, hc⟩ : ∃ c, rb / 1461 = c := ⟨_, rfl⟩
  obtain ⟨rc, hrc⟩ : ∃ r, rb % 1461 = r := ⟨_, rfl⟩
  rw [hc, hrc]
  obtain ⟨d, hd⟩ : ∃ d, rc / 365 = d := ⟨_, rfl⟩
  rw [hd]
  split <;> omega

set_option maxHeartbeats 1000000 in
/-- The month of a valid day-of-year is one of the twelve months. -/
theorem month_bounds (L doy : ℤ) :
    1 ≤ monthOfDoy L doy ∧ monthOfDoy L doy ≤ 12 := by
  unfold monthOfDoy
  split_ifs <;> omega

theorem nat4rec (n : ℕ) (h : n ≤ 9999) :
    1000 * (n / 1000 % 10) + 100 * (n / 100 % 10) + 10 * (n / 10 % 10) + n % 10 = n := by
  omega

theorem nat2rec (n : ℕ) (h : n ≤ 99) : 10 * (n / 10 % 10) + n % 10 = n := by
  omega

theorem digitChar_isDigit (k : ℕ) (h : k < 10) : (Nat.digitChar k).isDigit = true := by
  interval_cases k <;> decide

theorem digitVal_digitChar (k : ℕ) (h : k < 10) : digitVal (Nat.digitChar k) = k := by
  interval_cases k <;> decide

/-- parseIsoChars on a list of the shape iso_date produces. -/
theorem parseIsoChars_build (y1 y2 y3 y4 m1 m2 d1 d2 h1 h2 i1 i2 s1 s2 : Char) :
    parseIsoChars [y1, y2, y3, y4, '-', m1, m2, '-', d1, d2, 'T',
      h1, h2, ':', i1, i2, ':', s1, s2, '+', '0', '0', ':', '0', '0'] =
    if y1.isDigit && y2.isDigit && y3.isDigit && y4.isDigit &&
        m1.isDigit && m2.isDigit && d1.isDigit && d2.isDigit &&
        h1.isDigit && h2.isDigit && i1.isDigit && i2.isDigit &&
        s1.isDigit && s2.isDigit then
      some (86400 * daysFromCivil
          ((1000 * digitVal y1 + 100 * digitVal y2 + 10 * digitVal y3 + digitVal y4 : ℕ) : ℤ)
          ((10 * digitVal m1 + digitVal m2 : ℕ) : ℤ)
          ((10 * digitVal d1 + digitVal d2 : ℕ) : ℤ) +
        ((3600 * (10 * digitVal h1 + digitVal h2) + 60 * (10 * digitVal i1 + digitVal i2) +
          (10 * digitVal s1 + digitVal s2) : ℕ) : ℤ))
    else none := rfl

set_option maxHeartbeats 2000000 in
/-- Character-level round trip: parsing the ISO rendering of a representable
whole-second timestamp recovers the timestamp. -/
theorem parse_isoChars_roundtrip (t : ℤ)
    (hlo : -62135596800 ≤ t) (hhi : t ≤ 253402300799) :
    parseIsoChars (isoChars t) = some t := by
  unfold isoChars
  obtain ⟨days, hdays⟩ : ∃ a, t / 86400 = a := ⟨_, rfl⟩
  obtain ⟨sod, hsod⟩ : ∃ a, (t % 86400).toNat = a := ⟨_, rfl⟩
  rw [hdays, hsod]
  have hdr : -719162 ≤ days ∧ days ≤ 2932896 := by omega
  have hsr : sod < 86400 := by omega
  have hy := year_bounds days hdr.1 hdr.2
  have hyd := yearDoy_spec days
  have hmd := monthDoy_spec (leapDay (yearOfDays days)) (doyOfDays days)
    (leapDay_nonneg _) (leapDay_le_one _) hyd.2.1 hyd.2.2
  have hinv := civil_inverse days
  obtain ⟨y, hy_eq⟩ : ∃ a, yearOfDays days = a := ⟨_, rfl⟩
  obtain ⟨mo, hmo_eq⟩ : ∃ a, monthOfDoy (leapDay (yearOfDays days)) (doyOfDays days) = a :=
    ⟨_, rfl⟩
  obtain ⟨dm, hdm_eq⟩ : ∃ a, domOfDoy (leapDay (yearOfDays days)) (doyOfDays days) = a :=
    ⟨_, rfl⟩
  rw [hy_eq] at hy hinv hmd hmo_eq hdm_eq ⊢
  rw [hmo_eq] at hmd hinv ⊢
  rw [hdm_eq] at hmd hinv ⊢
  simp only [pad4, pad2, List.cons_append, List.nil_append]
  rw [parseIsoChars_build]
  have b1 : y.toNat / 1000 % 10 < 10 := Nat.mod_lt _ (by norm_num)
  have b2 : y.toNat / 100 % 10 < 10 := Nat.mod_lt _ (by norm_num)
  have b3 : y.toNat / 10 % 10 < 10 := Nat.mod_lt _ (by norm_num)
  have b4 : y.toNat % 10 < 10 := Nat.mod_lt _ (by norm_num)
  have b5 : mo.toNat / 10 % 10 < 10 := Nat.mod_lt _ (by norm_num)
  have b6 : mo.toNat % 10 < 10 := Nat.mod_lt _ (by norm_num)
  have b7 : dm.toNat / 10 % 10 < 10 := Nat.mod_lt _ (by norm_num)
  have b8 : dm.toNat % 10 < 10 := Nat.mod_lt _ (by norm_num)
  have b9 : sod / 3600 / 10 % 10 < 10 := Nat.mod_lt _ (by norm_num)
  have b10 : sod / 3600 % 10 < 10 := Nat.mod_lt _ (by norm_num)
  have b11 : sod % 3600 / 60 / 10 % 10 < 10 := Nat.mod_lt _ (by norm_num)
  have b12 : sod % 3600 / 60 % 10 < 10 := Nat.mod_lt _ (by norm_num)
  have b13 : sod % 60 / 10 % 10 < 10 := Nat.mod_lt _ (by norm_num)
  have b14 : sod % 60 % 10 < 10 := Nat.mod_lt _ (by norm_num)
  rw [if_pos (by
    simp only [digitChar_isDigit _ b1, digitChar_isDigit _ b2, digitChar_isDigit _ b3,
      digitChar_isDigit _ b4, digitChar_isDigit _ b5, digitChar_isDigit _ b6,
      digitChar_isDigit _ b7, digitChar_isDigit _ b8, digitChar_isDigit _ b9,
      digitChar_isDigit _ b10, digitChar_isDigit _ b11, digitChar_isDigit _ b12,
      digitChar_isDigit _ b13, digitChar_isDigit _ b14, Bool.and_self])]
  simp only [digitVal_digitChar _ b1, digitVal_digitChar _ b2, digitVal_digitChar _ b3,
    digitVal_digitChar _ b4, digitVal_digitChar _ b5, digitVal_digitChar _ b6,
    digitVal_digitChar _ b7, digitVal_digitChar _ b8, digitVal_digitChar _ b9,
    digitVal_digitChar _ b10, digitVal_digitChar _ b11, digitVal_digitChar _ b12,
    digitVal_digitChar _ b13, digitVal_digitChar _ b14]
  have hyrec := nat4rec y.toNat (by omega)
  have hmorec := nat2rec mo.toNat (by omega)
  have hdmrec := nat2rec dm.toNat (by omega)
  have hh2 := nat2rec (sod / 3600) (by omega)
  have hm2 := nat2rec (sod % 3600 / 60) (by omega)
  have hs2 := nat2rec (sod % 60) (by omega)
  have hsodrec : 3600 * (10 * (sod / 3600 / 10 % 10) + sod / 3600 % 10) +
      60 * (10 * (sod % 3600 / 60 / 10 % 10) + sod % 3600 / 60 % 10) +
      (10 * (sod % 60 / 10 % 10) + sod % 60 % 10) = sod := by
    rw [hh2, hm2, hs2]
    omega
  rw [hyrec, hmorec, hdmrec, hsodrec]
  have hcy : ((y.toNat : ℕ) : ℤ) = y := Int.toNat_of_nonneg (by omega)
  have hcmo : ((mo.toNat : ℕ) : ℤ) = mo := Int.toNat_of_nonneg (by omega)
  have hcdm : ((dm.toNat : ℕ) : ℤ) = dm := Int.toNat_of_nonneg (by omega)
  rw [hcy, hcmo, hcdm, hinv]
  have hcsod : ((sod : ℕ) : ℤ) = t % 86400 := by omega
  rw [hcsod]
  simp only [Option.some_inj]
  omega

example : to_iaqi 12 = some 50 := by decide
example : to_iaqi_tenths 354 = some 100 := by decide
example : to_iaqi_tenths 5004 = some 500 := by decide
example : to_iaqi 501 = none := by decide
example : iso_date 1700000000 = "2023-11-14T22:13:20+00:00" := by decide
example : parse_iso "2023-11-14T22:13:20+00:00" = some 1700000000 := by decide
example : json_dumps [("a", Value.null)] = "\x7b\"a\": null\x7d" := by decide

theorem dictKeys_cons (k : String) (v : Value) (d : PyDict) :
    dictKeys ((k, v) :: d) = k :: dictKeys d := rfl

theorem dictGet_dictSet (d : PyDict) (k q : String) (v : Value) :
    dictGet (dictSet d k v) q = if q = k then some v else dictGet d q := by
  induction d with
  | nil =>
    simp only [dictSet, dictGet]
    by_cases h : k = q
    · rw [if_pos h, if_pos h.symm]
    · rw [if_neg h, if_neg (fun hh => h hh.symm)]
  | cons kv rest ih =>
    obtain ⟨k0, v0⟩ := kv
    simp only [dictSet]
    by_cases hk : k0 = k
    · subst hk
      simp only [if_pos rfl, dictGet]
      by_cases hq : k0 = q
      · rw [if_pos hq, if_pos hq.symm]
      · rw [if_neg hq, if_neg (fun hh => hq hh.symm), if_neg hq]
    · rw [if_neg hk]
      simp only [dictGet]
      by_cases hq : k0 = q
      · rw [if_pos hq, if_pos hq, if_neg (fun hh : q = k => hk (hq.trans hh))]
      · rw [if_neg hq, if_neg hq, ih]

theorem dictGet_of_not_mem (d : PyDict) (q : String) (h : q ∉ dictKeys d) :
    dictGet d q = none := by
  induction d with
  | nil => rfl
  | cons kv rest ih =>
    obtain ⟨k0, v0⟩ := kv
    rw [dictKeys_cons] at h
    simp only [List.mem_cons, not_or] at h
    simp only [dictGet]
    rw [if_neg (fun hh => h.1 hh.symm)]
    exact ih h.2

theorem dictSet_of_not_mem (d : PyDict) (k : String) (v : Value)
    (h : k ∉ dictKeys d) : dictSet d k v = d ++ [(k, v)] := by
  induction d with
  | nil => rfl
  | cons kv rest ih =>
    obtain ⟨k0, v0⟩ := kv
    rw [dictKeys_cons] at h
    simp only [List.mem_cons, not_or] at h
    simp only [dictSet]
    rw [if_neg (fun hh => h.1 hh.symm)]
    simp only [List.cons_append, List.cons.injEq, true_and]
    exact ih h.2

theorem dictKeys_append (d e : PyDict) :
    dictKeys (d ++ e) = dictKeys d ++ dictKeys e := by
  simp [dictKeys]

theorem foldl_dictSet (pairs : List (String × Value)) (d : PyDict)
    (h1 : (pairs.map Prod.fst).Nodup)
    (h2 : ∀ k ∈ pairs.map Prod.fst, k ∉ dictKeys d) :
    pairs.foldl (fun d kv => dictSet d kv.1 kv.2) d = d ++ pairs := by
  induction pairs generalizing d with
  | nil => simp
  | cons kv rest ih =>
    obtain ⟨k0, v0⟩ := kv
    simp only [List.foldl_cons]
    rw [dictSet_of_not_mem d k0 v0 (h2 k0 (by simp))]
    rw [ih (d ++ [(k0, v0)]) (by simp_all) ?disj]
    · simp
    case disj =>
      intro k hk
      rw [dictKeys_append]
      simp only [List.mem_append]
      push_neg
      constructor
      · exact h2 k (by simp [hk])
      · simp only [dictKeys, List.map_cons, List.map_nil, List.mem_cons]
        simp only [List.map_cons, List.nodup_cons] at h1
        rintro (rfl | h)
        · exact h1.1 hk
        · simp at h

theorem pyDictOfZip_eq_zip (ks : List String) (vs : List Value)
    (hnd : ks.Nodup) (hlen : ks.length = vs.length) :
    pyDictOfZip ks vs = List.zip ks vs := by
  unfold pyDictOfZip
  rw [foldl_dictSet]
  · simp
  · rw [List.map_fst_zip ks vs (by omega)]
    exact hnd
  · simp [dictKeys]

theorem dictGet_zip_at (ks : List String) (vs : List Value) (hnd : ks.Nodup)
    (i : ℕ) (hi : i < ks.length) (hi2 : i < vs.length) :
    dictGet (List.zip ks vs) (ks.get ⟨i, hi⟩) = some (vs.get ⟨i, hi2⟩) := by
  induction ks generalizing vs i with
  | nil => simp at hi
  | cons k rest ih =>
    cases vs with
    | nil => simp at hi2
    | cons v vrest =>
      cases i with
      | zero => simp [dictGet]
      | succ j =>
        simp only [List.zip_cons_cons, List.get_cons_succ]
        unfold dictGet
        simp only [List.nodup_cons] at hnd
        split_ifs with h1
        · exfalso
          apply hnd.1
          rw [h1]
          exact List.get_mem rest _ _
        · exact ih vrest hnd.2 j (by simpa using hi) (by simpa using hi2)

theorem eml_ok_forall (f : α → Except Err β) (xs : List α) (ys : List β)
    (h : exceptMapList f xs = .ok ys) : ∀ x ∈ xs, ∃ y, f x = .ok y := by
  induction xs generalizing ys with
  | nil => simp
  | cons x rest ih =>
    intro a ha
    unfold exceptMapList at h
    cases hfx : f x with
    | error e => rw [hfx] at h; simp at h
    | ok y =>
      rw [hfx] at h
      cases hrest : exceptMapList f rest with
      | error e => rw [hrest] at h; simp at h
      | ok ys2 =>
        rw [hrest] at h
        rcases List.mem_cons.mp ha with rfl | hmem
        · exact ⟨y, hfx⟩
        · exact ih ys2 hrest a hmem

theorem eml_ok_length (f : α → Except Err β) (xs : List α) (ys : List β)
    (h : exceptMapList f xs = .ok ys) : ys.length = xs.length := by
  induction xs generalizing ys with
  | nil => unfold exceptMapList at h; simp_all
  | cons x rest ih =>
    unfold exceptMapList at h
    cases hfx : f x with
    | error e => rw [hfx] at h; simp at h
    | ok y =>
      rw [hfx] at h
      cases hrest : exceptMapList f rest with
      | error e => rw [hrest] at h; simp at h
      | ok ys2 =>
        rw [hrest] at h
        simp only [Except.ok.injEq] at h
        subst h
        simp [ih ys2 hrest]

theorem eml_ok_mem (f : α → Except Err β) (xs : List α) (ys : List β)
    (h : exceptMapList f xs = .ok ys) : ∀ y ∈ ys, ∃ x ∈ xs, f x = .ok y := by
  induction xs generalizing ys with
  | nil =>
    unfold exceptMapList at h
    simp only [Except.ok.injEq] at h
    subst h
    simp
  | cons x rest ih =>
    intro b hb
    unfold exceptMapList at h
    cases hfx : f x with
    | error e => rw [hfx] at h; simp at h
    | ok y =>
      rw [hfx] at h
      cases hrest : exceptMapList f rest with
      | error e => rw [hrest] at h; simp at h
      | ok ys2 =>
        rw [hrest] at h
        simp only [Except.ok.injEq] at h
        subst h
        rcases List.mem_cons.mp hb with rfl | hmem
        · exact ⟨x, by simp, hfx⟩
        · obtain ⟨a, hmem2, hfa⟩ := ih ys2 hrest b hmem
          exact ⟨a, by simp [hmem2], hfa⟩

theorem digitCh_large (k : ℕ) (h : 15 ≤ k) : digitCh k = 'f' := by
  have hx : ∀ j : ℕ, j < 15 → ¬ k = j := by omega
  unfold digitCh
  rw [if_neg (hx 0 (by norm_num)), if_neg (hx 1 (by norm_num)),
    if_neg (hx 2 (by norm_num)), if_neg (hx 3 (by norm_num)),
    if_neg (hx 4 (by norm_num)), if_neg (hx 5 (by norm_num)),
    if_neg (hx 6 (by norm_num)), if_neg (hx 7 (by norm_num)),
    if_neg (hx 8 (by norm_num)), if_neg (hx 9 (by norm_num)),
    if_neg (hx 10 (by norm_num)), if_neg (hx 11 (by norm_num)),
    if_neg (hx 12 (by norm_num)), if_neg (hx 13 (by norm_num)),
    if_neg (hx 14 (by norm_num))]

theorem digitCh_ne_nl (k : ℕ) : digitCh k ≠ '\n' := by
  rcases Nat.lt_or_ge k 15 with h | h
  · interval_cases k <;> decide
  · rw [digitCh_large k h]
    decide

theorem nl_notin_escape (c : Char) : '\n' ∉ jsonEscapeChar c := by
  unfold jsonEscapeChar
  split_ifs with h1 h2 h3 h4 h5 h6
  · decide
  · decide
  · decide
  · decide
  · decide
  · intro hmem
    simp only [List.mem_cons, List.not_mem_nil, or_false] at hmem
    rcases hmem with h | h | h | h | h | h
    · exact absurd h (by decide)
    · exact absurd h (by decide)
    · exact absurd h (by decide)
    · exact absurd h (by decide)
    · exact digitCh_ne_nl _ h.symm
    · exact digitCh_ne_nl _ h.symm
  · intro hmem
    simp only [List.mem_singleton] at hmem
    rw [← hmem] at h6
    exact h6 (by decide)

theorem nl_notin_natDigits (n : ℕ) : '\n' ∉ natDigits n := by
  induction n using natDigits.induct with
  | case1 n h =>
    unfold natDigits
    rw [if_pos h]
    simp only [List.mem_singleton]
    exact fun hh => digitCh_ne_nl n hh.symm
  | case2 n h ih =>
    unfold natDigits
    rw [if_neg h]
    intro hmem
    rcases List.mem_append.mp hmem with hm | hm
    · exact ih hm
    · simp only [List.mem_singleton] at hm
      exact digitCh_ne_nl _ hm.symm

theorem nl_notin_intChars (n : ℤ) : '\n' ∉ intChars n := by
  unfold intChars
  split_ifs
  · intro hmem
    rcases List.mem_cons.mp hmem with h | h
    · exact absurd h (by decide)
    · exact nl_notin_natDigits _ h
  · exact nl_notin_natDigits _

theorem nl_notin_jsonStringChars (s : String) : '\n' ∉ jsonStringChars s := by
  unfold jsonStringChars
  intro hmem
  rcases List.mem_cons.mp hmem with h | hmem2
  · exact absurd h (by decide)
  rcases List.mem_append.mp hmem2 with h | h
  · rcases List.mem_flatten.mp h with ⟨l, hl, hin⟩
    rcases List.mem_map.mp hl with ⟨c, _, rfl⟩
    exact nl_notin_escape c hin
  · simp only [List.mem_singleton] at h
    exact absurd h (by decide)

theorem nl_notin_valueChars (v : Value) : '\n' ∉ valueChars v := by
  cases v with
  | null => decide
  | int n => exact nl_notin_intChars n
  | float q =>
    unfold valueChars ratChars
    intro hmem
    rcases List.mem_append.mp hmem with h | h
    · exact nl_notin_intChars _ h
    · rcases List.mem_cons.mp h with h2 | h2
      · exact absurd h2 (by decide)
      · exact nl_notin_natDigits _ h2
  | str s => exact nl_notin_jsonStringChars s

theorem nl_notin_entryChars (kv : String × Value) : '\n' ∉ entryChars kv := by
  unfold entryChars
  intro hmem
  rcases List.mem_append.mp hmem with h | h
  · exact nl_notin_jsonStringChars _ h
  · rcases List.mem_cons.mp h with h2 | h2
    · exact absurd h2 (by decide)
    · rcases List.mem_cons.mp h2 with h3 | h3
      · exact absurd h3 (by decide)
      · exact nl_notin_valueChars _ h3

theorem nl_notin_joinSep_comma (ls : List (List Char))
    (h : ∀ l ∈ ls, '\n' ∉ l) : '\n' ∉ joinSep [',', ' '] ls := by
  induction ls with
  | nil => simp [joinSep]
  | cons x xs ih =>
    cases xs with
    | nil => exact h x (by simp)
    | cons y ys =>
      simp only [joinSep]
      intro hmem
      rcases List.mem_append.mp hmem with hm | hm
      · rcases List.mem_append.mp hm with hm2 | hm2
        · exact h x (by simp) hm2
        · rcases List.mem_cons.mp hm2 with h3 | h3
          · exact absurd h3 (by decide)
          · simp only [List.mem_singleton] at h3
            exact absurd h3 (by decide)
      · exact ih (fun l hl => h l (List.mem_cons_of_mem _ hl)) hm

theorem nl_notin_dictChars (d : PyDict) : '\n' ∉ dictChars d := by
  unfold dictChars
  intro hmem
  rcases List.mem_cons.mp hmem with h | hmem2
  · exact absurd h (by decide)
  rcases List.mem_append.mp hmem2 with h | h
  · refine nl_notin_joinSep_comma _ ?_ h
    intro l hl
    rcases List.mem_map.mp hl with ⟨kv, _, rfl⟩
    exact nl_notin_entryChars kv
  · simp only [List.mem_singleton] at h
    exact absurd h (by decide)

theorem count_nl_joinSep (ls : List (List Char)) (h : ∀ l ∈ ls, '\n' ∉ l) :
    (joinSep ['\n'] ls).count '\n' = ls.length - 1 := by
  induction ls with
  | nil => simp [joinSep]
  | cons x xs ih =>
    cases xs with
    | nil =>
      simp only [joinSep]
      simp [List.count_eq_zero.mpr (h x (by simp))]
    | cons y ys =>
      simp only [joinSep]
      rw [List.count_append, List.count_append]
      rw [List.count_eq_zero.mpr (h x (by simp))]
      rw [ih (fun l hl => h l (List.mem_cons_of_mem _ hl))]
      simp only [List.count_cons, List.count_nil, List.length_cons]
      simp
      omega

/-- Half-even rounding of num/den lies between lo and hi when num does. -/
theorem rneInt_range (num den lo hi : ℤ) (hden : 0 < den)
    (hlo : lo * den ≤ num) (hhi : num ≤ hi * den) :
    lo ≤ rneInt num den ∧ rneInt num den ≤ hi := by
  have e := Int.ediv_add_emod num den
  have rb1 : 0 ≤ num % den := Int.emod_nonneg num (by omega)
  have rb2 : num % den < den := Int.emod_lt_of_pos num hden
  have hql : lo ≤ num / den := (Int.le_ediv_iff_mul_le hden).mpr hlo
  have hqu : num / den ≤ hi := by
    have h2 : num / den ≤ hi * den / den := Int.ediv_le_ediv hden hhi
    rwa [Int.mul_ediv_cancel _ (by omega)] at h2
  have hstrict : 0 < num % den → num / den < hi := by
    intro hr
    rcases lt_or_eq_of_le hqu with h | h
    · exact h
    · exfalso
      rw [h] at e
      nlinarith
  obtain ⟨q, hq⟩ : ∃ a, num / den = a := ⟨_, rfl⟩
  obtain ⟨r, hr⟩ : ∃ a, num % den = a := ⟨_, rfl⟩
  rw [hq] at e hql hqu hstrict
  rw [hr] at e rb1 rb2 hstrict
  simp only [rneInt]
  rw [hq, hr]
  rcases eq_or_lt_of_le rb1 with hr0 | hrpos
  · split_ifs <;> omega
  · have := hstrict hrpos
    split_ifs <;> omega

/-- Half-even rounding is monotone in the numerator. -/
theorem rneInt_mono (num1 num2 den : ℤ) (hden : 0 < den) (h : num1 ≤ num2) :
    rneInt num1 den ≤ rneInt num2 den := by
  have hq : num1 / den ≤ num2 / den := Int.ediv_le_ediv hden h
  have e1 := Int.ediv_add_emod num1 den
  have e2 := Int.ediv_add_emod num2 den
  have rb1 : 0 ≤ num1 % den := Int.emod_nonneg num1 (by omega)
  have rb2 : num1 % den < den := Int.emod_lt_of_pos num1 hden
  have rb3 : 0 ≤ num2 % den := Int.emod_nonneg num2 (by omega)
  have rb4 : num2 % den < den := Int.emod_lt_of_pos num2 hden
  obtain ⟨q1, hq1⟩ : ∃ a, num1 / den = a := ⟨_, rfl⟩
  obtain ⟨r1, hr1⟩ : ∃ a, num1 % den = a := ⟨_, rfl⟩
  obtain ⟨q2, hq2⟩ : ∃ a, num2 / den = a := ⟨_, rfl⟩
  obtain ⟨r2, hr2⟩ : ∃ a, num2 % den = a := ⟨_, rfl⟩
  rw [hq1] at e1 hq
  rw [hr1] at e1 rb1 rb2
  rw [hq2] at e2 hq
  rw [hr2] at e2 rb3 rb4
  simp only [rneInt]
  rw [hq1, hr1, hq2, hr2]
  rcases lt_or_eq_of_le hq with hlt | heq
  · split_ifs <;> omega
  · subst heq
    have hr12 : r1 ≤ r2 := by linarith
    split_ifs <;> omega

theorem segment_facts (k : ℤ) (h0 : 0 ≤ k) (h1 : k ≤ 5004) :
    ∃ clo chi ilo ihi v,
      pm25Seg k = some (clo, chi, ilo, ihi) ∧
      to_iaqi_tenths k = some v ∧ ilo ≤ v ∧ v ≤ ihi := by
  unfold to_iaqi_tenths pm25Seg
  split_ifs with c1 c2 c3 c4 c5 c6 c7
  · have h := rneInt_range ((50 - 0) * (k - 0) + 0 * (120 - 0)) (120 - 0)
      0 50 (by norm_num) (by omega) (by omega)
    exact ⟨0, 120, 0, 50, _, rfl, rfl, h.1, h.2⟩
  · have h := rneInt_range ((100 - 51) * (k - 121) + 51 * (354 - 121)) (354 - 121)
      51 100 (by norm_num) (by omega) (by omega)
    exact ⟨121, 354, 51, 100, _, rfl, rfl, h.1, h.2⟩
  · have h := rneInt_range ((150 - 101) * (k - 355) + 101 * (554 - 355)) (554 - 355)
      101 150 (by norm_num) (by omega) (by omega)
    exact ⟨355, 554, 101, 150, _, rfl, rfl, h.1, h.2⟩
  · have h := rneInt_range ((200 - 151) * (k - 555) + 151 * (1504 - 555)) (1504 - 555)
      151 200 (by norm_num) (by omega) (by omega)
    exact ⟨555, 1504, 151, 200, _, rfl, rfl, h.1, h.2⟩
  · have h := rneInt_range ((300 - 201) * (k - 1505) + 201 * (2504 - 1505)) (2504 - 1505)
      201 300 (by norm_num) (by omega) (by omega)
    exact ⟨1505, 2504, 201, 300, _, rfl, rfl, h.1, h.2⟩
  · have h := rneInt_range ((400 - 301) * (k - 2505) + 301 * (3504 - 2505)) (3504 - 2505)
      301 400 (by norm_num) (by omega) (by omega)
    exact ⟨2505, 3504, 301, 400, _, rfl, rfl, h.1, h.2⟩
  · have h := rneInt_range ((500 - 401) * (k - 3505) + 401 * (5004 - 3505)) (5004 - 3505)
      401 500 (by norm_num) (by omega) (by omega)
    exact ⟨3505, 5004, 401, 500, _, rfl, rfl, h.1, h.2⟩
  · omega

/-- Any segment returned by the table contains its concentration and has
positive width and nondecreasing index range. -/
theorem pm25Seg_bounds (k clo chi ilo ihi : ℤ)
    (h : pm25Seg k = some (clo, chi, ilo, ihi)) :
    clo ≤ k ∧ k ≤ chi ∧ 0 < chi - clo ∧ 0 ≤ ihi - ilo := by
  unfold pm25Seg at h
  split_ifs at h <;>
    (simp only [Option.some_inj, Prod.mk.injEq] at h
     obtain ⟨rfl, rfl, rfl, rfl⟩ := h
     omega)

/-- to_iaqi_tenths computes rneInt on the segment containing k. -/
theorem to_iaqi_of_seg (k clo chi ilo ihi : ℤ)
    (h : pm25Seg k = some (clo, chi, ilo, ihi)) :
    to_iaqi_tenths k =
      some (rneInt ((ihi - ilo) * (k - clo) + ilo * (chi - clo)) (chi - clo)) := by
  unfold to_iaqi_tenths
  rw [h]

/-- Within one breakpoint segment the computed IAQI is monotone. -/
theorem to_iaqi_mono (k j v w : ℤ) (hkj : k ≤ j)
    (clo chi ilo ihi : ℤ)
    (hsk : pm25Seg k = some (clo, chi, ilo, ihi))
    (hsj : pm25Seg j = some (clo, chi, ilo, ihi))
    (hv : to_iaqi_tenths k = some v) (hw : to_iaqi_tenths j = some w) :
    v ≤ w := by
  have hbk := pm25Seg_bounds k clo chi ilo ihi hsk
  rw [to_iaqi_of_seg k clo chi ilo ihi hsk] at hv
  rw [to_iaqi_of_seg j clo chi ilo ihi hsj] at hw
  simp only [Option.some_inj] at hv hw
  subst hv
  subst hw
  apply rneInt_mono _ _ _ (by omega)
  have hmul : 0 ≤ (ihi - ilo) * (j - k) := mul_nonneg (by omega) (by omega)
  nlinarith

/-- The pm2.5 entry of the zipped stats dict is the ninth record value. -/
theorem stats_pm25 (record : List Value) (hlen : record.length = 10) :
    dictGet (pyDictOfZip ALL_FIELDS record) "pm2.5" =
      some (record.get ⟨8, by omega⟩) := by
  rw [pyDictOfZip_eq_zip ALL_FIELDS record (by decide) (by rw [hlen]; rfl)]
  have h := dictGet_zip_at ALL_FIELDS record (by decide) 8 (by decide) (by omega)
  exact h

/-- parse_sensor_record on an equal-length record with integer pm2.5. -/
theorem parse_ok_char (fields : List String) (record : List Value) (n : ℤ)
    (hlen : fields.length = record.length)
    (hget : dictGet (pyDictOfZip fields record) "pm2.5" = some (Value.int n))
    (hn : 0 ≤ n) :
    ∃ v, parse_sensor_record fields record =
        .ok (dictSet (pyDictOfZip fields record) "epa_iaqi_25" v) ∧
      ((500 < n ∧ v = Value.null) ∨ (n ≤ 500 ∧ ∃ j, v = Value.int j)) := by
  unfold parse_sensor_record
  rw [if_neg (by omega)]
  simp only [hget]
  by_cases hc : n ≤ 500
  · rw [if_pos hc]
    obtain ⟨clo, chi, ilo, ihi, v, hseg, hiaqi, hlo2, hhi2⟩ :=
      segment_facts (10 * n) (by omega) (by omega)
    unfold to_iaqi
    rw [hiaqi]
    exact ⟨Value.int v, rfl, Or.inr ⟨hc, v, rfl⟩⟩
  · rw [if_neg hc]
    exact ⟨Value.null, rfl, Or.inl ⟨by omega, rfl⟩⟩

/-- What one loop iteration of main produces, in terms of the parsed dict. -/
theorem process_fields (resp : ApiResponse) (record : List Value) (m : PyDict)
    (hp : process_record resp record = .ok m) :
    ∃ parsed t, parse_sensor_record ALL_FIELDS record = .ok parsed ∧
      dictGet parsed "last_seen" = some (Value.int t) ∧
      m = dictSet (metaSets resp parsed) "last_seen" (Value.str (iso_date t)) := by
  unfold process_record at hp
  cases hpar : parse_sensor_record ALL_FIELDS record with
  | error e => rw [hpar] at hp; exact absurd hp (by simp)
  | ok parsed =>
    rw [hpar] at hp
    simp only [] at hp
    cases hls : dictGet (metaSets resp parsed) "last_seen" with
    | none => rw [hls] at hp; exact absurd hp (by simp)
    | some val =>
      rw [hls] at hp
      have hls2 : dictGet parsed "last_seen" = some val := by
        unfold metaSets at hls
        rw [dictGet_dictSet, if_neg (by decide), dictGet_dictSet, if_neg (by decide),
          dictGet_dictSet, if_neg (by decide), dictGet_dictSet, if_neg (by decide),
          dictGet_dictSet, if_neg (by decide), dictGet_dictSet, if_neg (by decide)] at hls
        exact hls
      cases val with
      | int t =>
        simp only [Except.ok.injEq] at hp
        exact ⟨parsed, t, rfl, hls2, hp.symm⟩
      | null => exact absurd hp (by simp)
      | float q => exact absurd hp (by simp)
      | str s2 => exact absurd hp (by simp)

/-- Reading the enriched dict at the metadata and timestamp keys. -/
theorem metaSets_gets (resp : ApiResponse) (parsed : PyDict) :
    dictGet (metaSets resp parsed) "api_version" = some resp.api_version ∧
    dictGet (metaSets resp parsed) "location_type" = some resp.location_type ∧
    dictGet (metaSets resp parsed) "max_age" = some resp.max_age ∧
    dictGet (metaSets resp parsed) "firmware_default_version" =
      some resp.firmware_default_version ∧
    dictGet (metaSets resp parsed) "time_stamp" =
      some (Value.str (iso_date resp.time_stamp)) ∧
    dictGet (metaSets resp parsed) "data_time_stamp" =
      some (Value.str (iso_date resp.data_time_stamp)) := by
  unfold metaSets
  refine ⟨?_, ?_, ?_, ?_, ?_, ?_⟩ <;>
    (repeat rw [dictGet_dictSet]) <;>
    (repeat rw [if_neg (by decide)]) <;> rw [if_pos rfl]

/-- Every reading of a successful batch carries the two batch timestamps and an
ISO-converted last_seen. -/
theorem c6_broadcast (resp : ApiResponse) (readings : List PyDict) (m : PyDict)
    (hok : run_batch resp = .ok readings) (hmem : m ∈ readings) :
    dictGet m "time_stamp" = some (Value.str (iso_date resp.time_stamp)) ∧
    dictGet m "data_time_stamp" = some (Value.str (iso_date resp.data_time_stamp)) ∧
    ∃ tl, dictGet m "last_seen" = some (Value.str (iso_date tl)) := by
  obtain ⟨record, hrec, hpr⟩ := eml_ok_mem _ _ _ hok m hmem
  obtain ⟨parsed, tl, hpar, hls, rfl⟩ := process_fields resp record m hpr
  have hm := metaSets_gets resp parsed
  refine ⟨?_, ?_, tl, ?_⟩
  · rw [dictGet_dictSet, if_neg (by decide)]
    exact hm.2.2.2.2.1
  · rw [dictGet_dictSet, if_neg (by decide)]
    exact hm.2.2.2.2.2
  · rw [dictGet_dictSet, if_pos rfl]

/-- Claim C1, counterexample: the claim as stated is false. For the
equal-length record whose pm2.5 value is the float 600.5 (> 500),
parse_sensor_record raises the int-type assertion instead of producing a
reading with a null epa_iaqi_25. -/
theorem c1_counterexample :
    parse_sensor_record ALL_FIELDS (sampleRec (Value.float (1201 / 2))) =
      .error .assertPm25Type ∧
    ¬∃ m, parse_sensor_record ALL_FIELDS (sampleRec (Value.float (1201 / 2))) =
      .ok m ∧ dictGet m "epa_iaqi_25" = some Value.null := by
  have h : parse_sensor_record ALL_FIELDS (sampleRec (Value.float (1201 / 2))) =
      .error .assertPm25Type := rfl
  refine ⟨h, ?_⟩
  rintro ⟨m, hm, _⟩
  rw [h] at hm
  exact absurd hm (by simp)

/-- Claim C1 (amended): for every sensor record whose pm2.5 value is a
non-negative integer, parse_sensor_record sets epa_iaqi_25 to an explicit
null when pm2.5 > 500 (a value distinct from the string "None" and from 0,
serialized as the JSON text null) and to a plain integer when pm2.5 ≤ 500. -/
theorem c1_amended (record : List Value) (n : ℤ) (hlen : record.length = 10)
    (hget : record.get ⟨8, by omega⟩ = Value.int n) (hn : 0 ≤ n) :
    (500 < n → ∃ m, parse_sensor_record ALL_FIELDS record = .ok m ∧
      dictGet m "epa_iaqi_25" = some Value.null ∧
      valueChars Value.null = ['n', 'u', 'l', 'l'] ∧
      Value.null ≠ Value.str "None" ∧ Value.null ≠ Value.int 0) ∧
    (n ≤ 500 → ∃ m j, parse_sensor_record ALL_FIELDS record = .ok m ∧
      dictGet m "epa_iaqi_25" = some (Value.int j)) := by
  have hs := stats_pm25 record hlen
  rw [hget] at hs
  obtain ⟨v, hok, hv⟩ := parse_ok_char ALL_FIELDS record n (by rw [hlen]; rfl) hs hn
  constructor
  · intro h5
    rcases hv with ⟨_, rfl⟩ | ⟨hle, _⟩
    · exact ⟨_, hok, by rw [dictGet_dictSet, if_pos rfl], by decide, by decide, by decide⟩
    · omega
  · intro h5
    rcases hv with ⟨hgt, _⟩ | ⟨_, j, rfl⟩
    · omega
    · exact ⟨_, j, hok, by rw [dictGet_dictSet, if_pos rfl]⟩

theorem c1_witness :
    ((sampleRec (Value.int 501)).length = 10 ∧
      (sampleRec (Value.int 501)).get ⟨8, by decide⟩ = Value.int 501 ∧
      (0 : ℤ) ≤ 501 ∧ (500 : ℤ) < 501) ∧
    (∃ m, parse_sensor_record ALL_FIELDS (sampleRec (Value.int 501)) = .ok m ∧
      dictGet m "epa_iaqi_25" = some Value.null ∧
      valueChars Value.null = ['n', 'u', 'l', 'l'] ∧
      Value.null ≠ Value.str "None" ∧ Value.null ≠ Value.int 0) :=
  ⟨⟨by decide, by decide, by decide, by decide⟩,
    (c1_amended (sampleRec (Value.int 501)) 501 (by decide) (by decide) (by decide)).1
      (by decide)⟩

/-- Claim C2: for a field-name list and record of unequal length,
parse_sensor_record fails with the length-assertion failure; under equal
lengths that assertion branch is unreachable; and a bad-length record makes
the whole batch fail rather than being skipped. -/
theorem c2_len_assert (fields : List String) (record : List Value) :
    (fields.length ≠ record.length →
      parse_sensor_record fields record = .error .assertLenMismatch) ∧
    (fields.length = record.length →
      parse_sensor_record fields record ≠ .error .assertLenMismatch) ∧
    (∀ (resp : ApiResponse) (r : List Value), r ∈ resp.data → r.length ≠ 10 →
      ∀ readings, run_batch resp ≠ .ok readings) := by
  refine ⟨?_, ?_, ?_⟩
  · intro h
    unfold parse_sensor_record
    rw [if_pos h]
  · intro h
    unfold parse_sensor_record
    rw [if_neg (by omega)]
    cases hg : dictGet (pyDictOfZip fields record) "pm2.5" with
    | none => simp
    | some val =>
      cases val with
      | int n =>
        simp only []
        by_cases hc : n ≤ 500
        · rw [if_pos hc]
          cases hiq : to_iaqi n with
          | none => simp
          | some v => simp
        · rw [if_neg hc]
          simp
      | null => simp
      | float q => simp
      | str s2 => simp
  · intro resp r hmem hlen readings hok
    obtain ⟨y, hy⟩ := eml_ok_forall _ _ _ hok r hmem
    unfold process_record at hy
    have hbad : parse_sensor_record ALL_FIELDS r = .error .assertLenMismatch := by
      unfold parse_sensor_record
      rw [if_pos (by simp [ALL_FIELDS, FIELDS]; omega)]
    rw [hbad] at hy
    exact absurd hy (by simp)

theorem c2_witness :
    (ALL_FIELDS.length ≠ ([] : List Value).length) ∧
    parse_sensor_record ALL_FIELDS [] = .error .assertLenMismatch :=
  ⟨by decide, (c2_len_assert ALL_FIELDS []).1 (by decide)⟩

/-- Claim C3, evaluation at the spec's concrete scenarios: the float inputs
12.0 and 35.4 do not reach the conversion at all (the pm2.5 int assertion
fires), although the conversion itself maps 12.0 µg/m³ to 50 and
35.4 µg/m³ to 100; the integer input 501 yields a null epa_iaqi_25. -/
theorem c3_eval :
    parse_sensor_record ALL_FIELDS (sampleRec (Value.float 12)) =
      .error .assertPm25Type ∧
    parse_sensor_record ALL_FIELDS (sampleRec (Value.float (177 / 5))) =
      .error .assertPm25Type ∧
    to_iaqi_tenths 120 = some 50 ∧ to_iaqi_tenths 354 = some 100 ∧
    (∃ m, parse_sensor_record ALL_FIELDS (sampleRec (Value.int 501)) = .ok m ∧
      dictGet m "epa_iaqi_25" = some Value.null) :=
  ⟨rfl, rfl, by decide, by decide, ⟨_, rfl, by decide⟩⟩

/-- Claim C4, evaluation: a record whose pm2.5 is the float 7.5 makes
parse_sensor_record fail the int-type assertion, contradicting the claim
that any float-or-integer pm2.5 yields a NormalizedReading; an integer
pm2.5 is accepted. -/
theorem c4_eval :
    parse_sensor_record ALL_FIELDS (sampleRec (Value.float (15 / 2))) =
      .error .assertPm25Type ∧
    (∃ m, parse_sensor_record ALL_FIELDS (sampleRec (Value.int 7)) = .ok m) :=
  ⟨rfl, ⟨_, rfl⟩⟩

/-- Claim C5: for every PM2.5 concentration of k tenths of a µg/m³ with
0 ≤ k ≤ 5004 (0 ≤ c ≤ 500.4), the computed IAQI exists and lies within the
integer index range of the EPA breakpoint segment containing it, and the
IAQI is monotonically non-decreasing within each breakpoint segment. -/
theorem c5_range_mono (k : ℤ) (h0 : 0 ≤ k) (h1 : k ≤ 5004) :
    (∃ clo chi ilo ihi v, pm25Seg k = some (clo, chi, ilo, ihi) ∧
      to_iaqi_tenths k = some v ∧ ilo ≤ v ∧ v ≤ ihi) ∧
    (∀ j v w, k ≤ j → pm25Seg j = pm25Seg k →
      to_iaqi_tenths k = some v → to_iaqi_tenths j = some w → v ≤ w) := by
  constructor
  · exact segment_facts k h0 h1
  · intro j v w hkj hseg hv hw
    obtain ⟨clo, chi, ilo, ihi, v2, hsk, hv2, _, _⟩ := segment_facts k h0 h1
    rw [hsk] at hseg
    exact to_iaqi_mono k j v w hkj clo chi ilo ihi hsk hseg hv hw

theorem c5_witness :
    ((0 : ℤ) ≤ 120 ∧ (120 : ℤ) ≤ 5004) ∧
    (∃ clo chi ilo ihi v, pm25Seg 120 = some (clo, chi, ilo, ihi) ∧
      to_iaqi_tenths 120 = some v ∧ ilo ≤ v ∧ v ≤ ihi) :=
  ⟨⟨by decide, by decide⟩, (c5_range_mono 120 (by decide) (by decide)).1⟩

/-- Claim C6: every epoch-seconds field is converted by iso_date to an
ISO-8601 UTC string with an explicit +00:00 offset (never a naive local
time); epoch 1700000000 renders as "2023-11-14T22:13:20+00:00"; and the
batch timestamps are broadcast identically, ISO-converted, onto every
reading of a batch, as is the converted last_seen. -/
theorem c6_iso_utc (t : ℤ) :
    (∃ body, (iso_date t).data = body ++ ['+', '0', '0', ':', '0', '0']) ∧
    iso_date 1700000000 = "2023-11-14T22:13:20+00:00" ∧
    (∀ (resp : ApiResponse) (readings : List PyDict) (m : PyDict),
      run_batch resp = .ok readings → m ∈ readings →
      dictGet m "time_stamp" = some (Value.str (iso_date resp.time_stamp)) ∧
      dictGet m "data_time_stamp" = some (Value.str (iso_date resp.data_time_stamp)) ∧
      ∃ tl, dictGet m "last_seen" = some (Value.str (iso_date tl))) := by
  refine ⟨⟨pad4 (yearOfDays (t / 86400)).toNat ++
      '-' :: pad2 (monthOfDoy (leapDay (yearOfDays (t / 86400))) (doyOfDays (t / 86400))).toNat ++
      '-' :: pad2 (domOfDoy (leapDay (yearOfDays (t / 86400))) (doyOfDays (t / 86400))).toNat ++
      'T' :: pad2 ((t % 86400).toNat / 3600) ++
      ':' :: pad2 ((t % 86400).toNat % 3600 / 60) ++
      ':' :: pad2 ((t % 86400).toNat % 60), ?_⟩, by decide,
    fun resp readings m hok hmem => c6_broadcast resp readings m hok hmem⟩
  show isoChars t = _
  simp only [isoChars, List.cons_append, List.nil_append, List.append_assoc]

/-- Claim C6, witness: a concrete two-record batch with batch timestamp
1700000000; both readings carry the same rendered time_stamp. -/
theorem c6_witness :
    iso_date 1700000000 = "2023-11-14T22:13:20+00:00" ∧
    (∃ readings, run_batch sampleResp = .ok readings ∧ readings.length = 2 ∧
      ∀ m ∈ readings, dictGet m "time_stamp" =
        some (Value.str (iso_date sampleResp.time_stamp))) :=
  ⟨(c6_iso_utc 0).2.1,
    ⟨_, rfl, rfl, fun m hm => ((c6_iso_utc 0).2.2 sampleResp _ m rfl hm).1⟩⟩

/-- Claim C7: for every epoch timestamp in the range representable by the
datetime module (years 1 to 9999), converting it with iso_date to an
ISO-8601 UTC string and parsing the string back yields the original epoch
value, at whole-second precision. -/
theorem c7_roundtrip (t : ℤ)
    (hlo : -62135596800 ≤ t) (hhi : t ≤ 253402300799) :
    parse_iso (iso_date t) = some t :=
  parse_isoChars_roundtrip t hlo hhi

/-- Claim C7, witness at epoch 1700000000. -/
theorem c7_witness :
    (-62135596800 ≤ (1700000000 : ℤ) ∧ (1700000000 : ℤ) ≤ 253402300799) ∧
    parse_iso (iso_date 1700000000) = some 1700000000 :=
  ⟨⟨by decide, by decide⟩, c7_roundtrip 1700000000 (by decide) (by decide)⟩

/-- Claim C8, counterexample: the claim as stated is false. For the
equal-length record whose pm2.5 value is the float 5.1 no normalized
mapping is produced at all: parse_sensor_record raises the pm2.5 int-type
assertion. -/
theorem c8_counterexample :
    ALL_FIELDS.length = (sampleRec (Value.float (51 / 10))).length ∧
    ¬∃ m, parse_sensor_record ALL_FIELDS (sampleRec (Value.float (51 / 10))) = .ok m := by
  refine ⟨by decide, ?_⟩
  rintro ⟨m, hm⟩
  rw [show parse_sensor_record ALL_FIELDS (sampleRec (Value.float (51 / 10))) =
    .error .assertPm25Type from rfl] at hm
  exact absurd hm (by simp)

/-- Claim C8 (amended): for every field-name list with distinct names not
containing the derived key and every record of equal length whose pm2.5
entry is a non-negative integer, the normalized mapping has exactly one
entry per field name (plus epa_iaqi_25) with each value identical to the
corresponding raw record value; and the four batch-level metadata fields
are copied verbatim and identically onto every reading of a batch. -/
theorem c8_amended (fields : List String) (record : List Value) (n : ℤ)
    (hnd : fields.Nodup) (hepa : "epa_iaqi_25" ∉ fields)
    (hlen : fields.length = record.length)
    (hget : dictGet (pyDictOfZip fields record) "pm2.5" = some (Value.int n))
    (hn : 0 ≤ n) :
    (∃ m, parse_sensor_record fields record = .ok m ∧
      dictKeys m = fields ++ ["epa_iaqi_25"] ∧
      ∀ (i : ℕ) (hi : i < fields.length) (hi2 : i < record.length),
        dictGet m (fields.get ⟨i, hi⟩) = some (record.get ⟨i, hi2⟩)) ∧
    (∀ (resp : ApiResponse) (readings : List PyDict) (m : PyDict),
      run_batch resp = .ok readings → m ∈ readings →
      dictGet m "api_version" = some resp.api_version ∧
      dictGet m "location_type" = some resp.location_type ∧
      dictGet m "max_age" = some resp.max_age ∧
      dictGet m "firmware_default_version" = some resp.firmware_default_version) := by
  constructor
  · obtain ⟨v, hok, hv⟩ := parse_ok_char fields record n hlen hget hn
    have hz := pyDictOfZip_eq_zip fields record hnd hlen
    have hkeys : dictKeys (List.zip fields record) = fields := by
      unfold dictKeys
      exact List.map_fst_zip fields record (by omega)
    refine ⟨_, hok, ?_, ?_⟩
    · rw [hz, dictSet_of_not_mem _ _ _ (by rw [hkeys]; exact hepa), dictKeys_append, hkeys]
      rfl
    · intro i hi hi2
      rw [hz, dictGet_dictSet,
        if_neg (fun hh => hepa (by rw [← hh]; exact List.get_mem fields _ _)),
        dictGet_zip_at fields record hnd i hi hi2]
  · intro resp readings m hok hmem
    obtain ⟨record2, hrec2, hpr⟩ := eml_ok_mem _ _ _ hok m hmem
    obtain ⟨parsed, tl, hpar, hls, rfl⟩ := process_fields resp record2 m hpr
    have hm := metaSets_gets resp parsed
    refine ⟨?_, ?_, ?_, ?_⟩ <;>
      rw [dictGet_dictSet, if_neg (by decide)]
    · exact hm.1
    · exact hm.2.1
    · exact hm.2.2.1
    · exact hm.2.2.2.1

theorem c8_witness :
    (ALL_FIELDS.Nodup ∧ "epa_iaqi_25" ∉ ALL_FIELDS ∧
      ALL_FIELDS.length = (sampleRec (Value.int 10)).length ∧
      dictGet (pyDictOfZip ALL_FIELDS (sampleRec (Value.int 10))) "pm2.5" =
        some (Value.int 10) ∧ (0 : ℤ) ≤ 10) ∧
    (∃ m, parse_sensor_record ALL_FIELDS (sampleRec (Value.int 10)) = .ok m ∧
      dictKeys m = ALL_FIELDS ++ ["epa_iaqi_25"] ∧
      ∀ (i : ℕ) (hi : i < ALL_FIELDS.length)
        (hi2 : i < (sampleRec (Value.int 10)).length),
        dictGet m (ALL_FIELDS.get ⟨i, hi⟩) =
          some ((sampleRec (Value.int 10)).get ⟨i, hi2⟩)) :=
  ⟨⟨by decide, by decide, by decide, by decide, by decide⟩,
    (c8_amended ALL_FIELDS (sampleRec (Value.int 10)) 10 (by decide) (by decide)
      (by decide) (by decide) (by decide)).1⟩

/-- Claim C9: an explicitly supplied API key is used as given and the key
file is never read (the run is independent of the file system); otherwise
the key is the first line of the key file stripped of surrounding
whitespace; and a missing key file aborts the run with the file-not-found
error before any HTTP request (the outcome is the same for every HTTP
collaborator). -/
theorem c9_apikey (k keyfile content : String) (fs : String → Option String)
    (http : String → ApiResponse) :
    ((∀ fs2 : String → Option String, resolve_apikey (some k) fs2 keyfile = .ok k) ∧
      run_main (some k) fs keyfile http = run_main (some k) (fun _ => none) keyfile http) ∧
    (fs keyfile = some content →
      resolve_apikey none fs keyfile = .ok (pyStrip (firstLine content))) ∧
    (fs keyfile = none →
      resolve_apikey none fs keyfile = .error .fileNotFound ∧
      ∀ http2 : String → ApiResponse,
        run_main none fs keyfile http2 = .error .fileNotFound) := by
  refine ⟨⟨fun fs2 => rfl, rfl⟩, ?_, ?_⟩
  · intro h
    unfold resolve_apikey
    rw [h]
  · intro h
    have hr : resolve_apikey none fs keyfile = .error .fileNotFound := by
      unfold resolve_apikey
      rw [h]
    refine ⟨hr, fun http2 => ?_⟩
    unfold run_main
    rw [hr]

theorem c9_witness :
    ((fun p => if p = ".api_key" then some " secret \n" else none) ".api_key" =
      some " secret \n") ∧
    resolve_apikey none (fun p => if p = ".api_key" then some " secret \n" else none)
      ".api_key" = .ok (pyStrip (firstLine " secret \n")) ∧
    pyStrip (firstLine " secret \n") = "secret" ∧
    resolve_apikey (some "k1") (fun _ => none) ".api_key" = .ok "k1" ∧
    run_main none (fun _ => none) ".api_key"
      (fun _ => ⟨Value.null, Value.null, Value.null, Value.null, 0, 0, []⟩) =
      .error .fileNotFound :=
  ⟨rfl,
    (c9_apikey "k1" ".api_key" " secret \n"
      (fun p => if p = ".api_key" then some " secret \n" else none)
      (fun _ => ⟨Value.null, Value.null, Value.null, Value.null, 0, 0, []⟩)).2.1 rfl,
    by decide,
    ((c9_apikey "k1" ".api_key" " secret \n" (fun _ => none)
      (fun _ => ⟨Value.null, Value.null, Value.null, Value.null, 0, 0, []⟩)).1).1
      (fun _ => none),
    (((c9_apikey "k1" ".api_key" " secret \n" (fun _ => none)
      (fun _ => ⟨Value.null, Value.null, Value.null, Value.null, 0, 0, []⟩)).2.2) rfl).2
      (fun _ => ⟨Value.null, Value.null, Value.null, Value.null, 0, 0, []⟩)⟩

/-- Claim C10: when the API response contains zero sensor records the
program still writes exactly one line - an empty line - to stdout, so the
number of emitted lines equals the number of records only for non-empty
batches. -/
theorem c10_lines (resp : ApiResponse) (readings : List PyDict)
    (hok : run_batch resp = .ok readings) :
    (resp.data = [] →
      emit readings = String.mk ['\n'] ∧ countNL (emit readings) = 1 ∧
      readings = []) ∧
    (resp.data ≠ [] → countNL (emit readings) = resp.data.length) := by
  have hlen := eml_ok_length _ _ _ hok
  constructor
  · intro hdata
    have hrd : readings = [] := by
      rw [hdata] at hlen
      exact List.length_eq_zero.mp (by simpa using hlen)
    subst hrd
    exact ⟨rfl, rfl, rfl⟩
  · intro hdata
    unfold countNL emit emitChars
    rw [List.count_append]
    rw [count_nl_joinSep (readings.map dictChars) ?nonl]
    case nonl =>
      intro l hl
      rcases List.mem_map.mp hl with ⟨d, _, rfl⟩
      exact nl_notin_dictChars d
    simp only [List.length_map, List.count_cons, List.count_nil]
    have hpos : 0 < resp.data.length := List.length_pos.mpr hdata
    simp
    omega

theorem c10_witness :
    (run_batch ⟨Value.null, Value.null, Value.null, Value.null, 0, 0, []⟩ = .ok [] ∧
      (⟨Value.null, Value.null, Value.null, Value.null, 0, 0, []⟩ : ApiResponse).data
        = []) ∧
    (emit [] = String.mk ['\n'] ∧ countNL (emit []) = 1 ∧ ([] : List PyDict) = []) :=
  ⟨⟨rfl, rfl⟩,
    (c10_lines ⟨Value.null, Value.null, Value.null, Value.null, 0, 0, []⟩ [] rfl).1 rfl⟩

